import Mathlib

/-!
# Verification of the mcp-router core

Shallow embedding of the mcp-router TypeScript sources
(`src/services/clientManager.ts`, `src/services/creditManager.ts`,
`src/services/auditLogger.ts`, `src/services/syncService.ts`,
`src/utils/serverManagement.ts`) together with theorems settling the
frozen claims about the natural-language specification.

Conventions used throughout the embedding:
* JS `Map` objects become association lists (`List (String × _)`);
  iteration order is insertion order, as in JS.
* Fallible calls (upstream MCP calls, `fetch`) are oracles: their outcome
  is an explicit `Except`/`FetchOutcome` argument, so a function of the
  source that awaits such a call becomes a Lean function of the outcome.
* Side effects that the claims observe (upstream tool invocations, audit
  rows, usage-tracking calls, emitted server events, reconnect attempts)
  are returned as explicit traces.
* JSON payloads are modelled as already-parsed structures; `JSON.parse`
  failure is a distinguished `malformed` constructor.
-/

namespace McpRouter

/-! ## String helpers (JS `indexOf` / `substring` / `includes`) -/

/-- Does the character list `sep` occur at the head of `l`?  Mirrors the
test JS `indexOf` performs at each position. -/
def headMatches (sep l : List Char) : Bool :=
  l.take sep.length = sep

/-- Index of the first occurrence of `sep` in `l`, as in JS
`String.prototype.indexOf` (`none` for `-1`). -/
def findSub (sep : List Char) : List Char → Option Nat
  | [] => if sep = [] then some 0 else none
  | c :: rest =>
    if headMatches sep (c :: rest) then some 0
    else (findSub sep rest).map (· + 1)

/-- JS `s.indexOf(sep)` on strings, `none` for `-1`. -/
def strIndexOf (s sep : String) : Option Nat :=
  findSub sep.toList s.toList

/-- JS `s.includes(sub)`. -/
def strIncludes (s sub : String) : Bool :=
  (strIndexOf s sub).isSome

/-- `occursIn pat s` holds when `pat` appears verbatim inside `s`;
used to state "the message includes the value". -/
def occursIn (pat s : String) : Prop :=
  ∃ a b, s = a ++ pat ++ b

/-- Split `name` at the FIRST occurrence of `sep`, returning the part
before and the part after the separator.  Mirrors
`clientManager.ts` `callTool` lines 284-291:
`indexOf`, then `substring(0, i)` and `substring(i + sep.length)`. -/
def splitFirst (name sep : String) : Option (String × String) :=
  match strIndexOf name sep with
  | none => none
  | some i =>
      some (⟨name.toList.take i⟩, ⟨name.toList.drop (i + sep.length)⟩)

/-! ## Data model (`src/types/index.ts`) -/

/-- `McpServerConfig` (types/index.ts).  Optional JS fields are `Option`s. -/
structure McpServerConfig where
  id : Option String := none
  name : String
  url : String
  description : Option String := none
  enabled : Option Bool := none
  autoReconnect : Option Bool := none
deriving Repr, DecidableEq

/-- `ServerStatus` (types/index.ts).  `lastConnected` dates are irrelevant
to the claims and omitted. -/
structure ServerStatus where
  name : String
  url : String
  connected : Bool
  lastError : Option String := none
  toolsCount : Nat := 0
deriving Repr, DecidableEq

/-- A content item of a tool result (`ToolHandlerResult.content` element). -/
structure ContentItem where
  type : String
  text : Option String := none
deriving Repr, DecidableEq

/-- `ToolHandlerResult`: `content` is always present after the router's
`content: result.content || []` normalisation. -/
structure ToolHandlerResult where
  content : List ContentItem
  isError : Bool := false
deriving Repr, DecidableEq

/-- A raw result as returned by the upstream SDK client, whose `content`
may be absent (`rawResult.content || []` in the source). -/
structure RawToolResult where
  rawContent : Option (List ContentItem) := none
  isError : Bool := false
deriving Repr, DecidableEq

/-- `{ ...rawResult, content: rawResult.content || [] }` -/
def ensureContent (r : RawToolResult) : ToolHandlerResult :=
  { content := r.rawContent.getD [], isError := r.isError }

/-- A tool as listed by an upstream server (`toolsResult.tools` element).
The input schema is kept as an opaque serialized form. -/
structure UpstreamTool where
  name : String
  description : String
  inputSchema : String := ""
deriving Repr, DecidableEq

/-- `AggregatedTool` (types/index.ts).  The `handler` closure forwards the
call to the upstream under the original name, so the embedding keeps the
original name in its place. -/
structure AggregatedTool where
  name : String
  description : String
  originalName : String
  inputSchema : String := ""
deriving Repr, DecidableEq

/-! ## Connection manager state (`src/services/clientManager.ts`) -/

/-- `ClientConnection` (clientManager.ts lines 19-27).  The live
`client`/`transport` objects act only through oracles, so they carry no
state here. -/
structure Connection where
  config : McpServerConfig
  status : ServerStatus
  tools : List AggregatedTool
  consecutivePingFailures : Option Nat := none
deriving Repr, DecidableEq

/-- The `connections` map: name → connection, in insertion order. -/
abbrev ConnMap := List (String × Connection)

/-- JS `Map.get`. -/
def connLookup (conns : ConnMap) (name : String) : Option Connection :=
  (conns.find? (fun p => p.1 = name)).map (·.2)

/-- `loadServerTools` tool construction (clientManager.ts lines 205-245):
every listed tool is mapped to an aggregated tool
`{serverId}{sep}{tool.name}` with a `[name] description` prefix.
Note the source applies NO filter to `toolsResult.tools`. -/
def aggregateTools (serverId : String) (sep : String) (configName : String)
    (tools : List UpstreamTool) : List AggregatedTool :=
  tools.map fun t =>
    { name := serverId ++ sep ++ t.name
      description := "[" ++ configName ++ "] " ++ t.description
      originalName := t.name
      inputSchema := t.inputSchema }

/-- `getAllTools` (clientManager.ts lines 268-278): iterate connections in
order and collect the tools of every connection whose status is
connected.  (The source also tests `connection.tools`, which is always a
truthy array.) -/
def getAllTools : ConnMap → List AggregatedTool
  | [] => []
  | p :: rest =>
      if p.2.status.connected then p.2.tools ++ getAllTools rest
      else getAllTools rest

/-- `getServerStatuses` (clientManager.ts lines 353-355). -/
def getServerStatuses (conns : ConnMap) : List ServerStatus :=
  conns.map (·.2.status)

/-- Router stats (clientManager.ts `getStats`, lines 582-592). -/
structure RouterStats where
  totalServers : Nat
  connectedServers : Nat
  totalTools : Nat
deriving Repr, DecidableEq

/-- `getStats` (clientManager.ts lines 582-592). -/
def getStats (conns : ConnMap) : RouterStats :=
  { totalServers := conns.length
    connectedServers := (conns.filter (fun p => p.2.status.connected)).length
    totalTools := (getAllTools conns).length }

/-- The connection stored by `connectToServer`'s failure branch
(clientManager.ts lines 164-183): `connected=false`, `lastError` set,
empty tool list. -/
def failedConnection (config : McpServerConfig) (errMsg : String) : Connection :=
  { config
    status :=
      { name := config.name
        url := config.url
        connected := false
        lastError := some errMsg
        toolsCount := 0 }
    tools := [] }

/-- The connection stored by `connectToServer`'s success branch
(clientManager.ts lines 133-151) after `loadServerTools` ran with the
given `listTools` outcome. -/
def connectedConnection (config : McpServerConfig) (sep : String)
    (listed : List UpstreamTool) : Connection :=
  let tools := aggregateTools config.name sep config.name listed
  { config
    status :=
      { name := config.name
        url := config.url
        connected := true
        lastError := none
        toolsCount := tools.length }
    tools := tools
    consecutivePingFailures := some 0 }

/-! ## Audit logging (`src/services/auditLogger.ts`) -/

/-- Request context carried through async-local storage
(`src/services/requestContext.ts`). -/
structure RequestContext where
  userId : Option String := none
  userEmail : Option String := none
  apiKey : Option String := none
deriving Repr, DecidableEq

/-- Call arguments are opaque to the router; an identifier stands for the
argument record. -/
abbrev ToolArgs := String

/-- `ToolCallAudit` (auditLogger.ts lines 3-14). -/
structure ToolCallAudit where
  serverName : String
  toolName : String
  arguments : Option ToolArgs := none
  response : Option ToolHandlerResult := none
  status : String
  errorMessage : Option String := none
  userId : Option String := none
  userEmail : Option String := none
  apiKey : Option String := none
deriving Repr, DecidableEq

/-- Audit logger configuration (auditLogger.ts constructor, lines 75-91). -/
structure AuditConfig where
  enabled : Bool
  logArguments : Bool := true
  logResponses : Bool := true
deriving Repr, DecidableEq

/-- `logToolCall` (auditLogger.ts lines 93-111): when disabled nothing is
enqueued; otherwise exactly one sanitized row joins the batch queue.
The returned list is the sequence of rows enqueued by this call. -/
def logToolCall (cfg : AuditConfig) (audit : ToolCallAudit) : List ToolCallAudit :=
  if !cfg.enabled then []
  else
    [{ audit with
        arguments := if cfg.logArguments then audit.arguments else none
        response := if cfg.logResponses then audit.response else none }]

/-! ## `callTool` (`clientManager.ts` lines 283-348)

The upstream `connection.client.callTool` is the oracle
`upstream : String → String → Except String RawToolResult`
(server name, original tool name ↦ outcome).  The result is the value
returned (or the error thrown) together with the audit rows enqueued in
the `finally` block. -/

def callTool (conns : ConnMap) (sep : String)
    (auditLogger : Option AuditConfig) (ctx : Option RequestContext)
    (toolName : String) (args : ToolArgs)
    (upstream : String → String → Except String RawToolResult) :
    Except String ToolHandlerResult × List ToolCallAudit :=
  match splitFirst toolName sep with
  | none => (Except.error ("Tool not found: " ++ toolName), [])
  | some (serverName, actualToolName) =>
    match connLookup conns serverName with
    | none => (Except.error ("Tool not found: " ++ toolName), [])
    | some conn =>
      if !conn.status.connected then
        (Except.error ("Server " ++ serverName ++ " is not connected"), [])
      else
        let audit (resp : Option ToolHandlerResult) (status : String)
            (errMsg : Option String) : List ToolCallAudit :=
          match auditLogger with
          | none => []
          | some cfg =>
              logToolCall cfg
                { serverName
                  toolName := actualToolName
                  arguments := some args
                  response := resp
                  status := status
                  errorMessage := errMsg
                  userId := ctx.bind (·.userId)
                  userEmail := ctx.bind (·.userEmail)
                  apiKey := ctx.bind (·.apiKey) }
        match upstream serverName actualToolName with
        | Except.ok raw =>
            let result := ensureContent raw
            (Except.ok result, audit (some result) "success" none)
        | Except.error m =>
            (Except.error m, audit none "error" (some m))

/-! ## Health-check loop (`clientManager.ts` `pingAllServers`, lines 458-530)

The per-connection body for a CONNECTED server whose ping outcome is
given by the oracle.  Emitted disconnection events and reconnect attempts
are returned as traces. -/

/-- A server event enqueued through the event logger. -/
structure ServerEventRec where
  serverId : String
  serverName : String
  eventType : String
  details : String := ""
deriving Repr, DecidableEq

/-- `maxConsecutivePingFailures` constructor default
(clientManager.ts line 54): `options?.maxConsecutivePingFailures || 3` —
`none` and `0` both fall back to 3. -/
def mkMaxPingFailures (opt : Option Nat) : Nat :=
  match opt with
  | none => 3
  | some n => if n = 0 then 3 else n

/-- Result of one health-check step on a connected server. -/
structure PingStepResult where
  conn : Connection
  events : List ServerEventRec
  reconnects : List String
deriving Repr, DecidableEq

/-- `pingAllServers` body for a connection with `status.connected = true`
(clientManager.ts lines 481-526).  `pingOutcome` is the oracle for
`connection.client.ping()`; `hasEventLogger` says whether an event logger
is configured.  On the max-failures transition the reconnect itself is
`reconnectToServer`, recorded here as an attempt trace entry. -/
def pingConnectedStep (maxFailures : Nat) (hasEventLogger : Bool)
    (conn : Connection) (pingOutcome : Except String Unit) : PingStepResult :=
  match pingOutcome with
  | Except.ok _ =>
      { conn :=
          { conn with
              consecutivePingFailures := some 0
              status :=
                if (conn.status.lastError.map (fun e => strIncludes e "ping")).getD false then
                  { conn.status with lastError := none }
                else conn.status }
        events := []
        reconnects := [] }
  | Except.error _ =>
      let failures := conn.consecutivePingFailures.getD 0 + 1
      if failures ≥ maxFailures then
        { conn :=
            { conn with
                consecutivePingFailures := some failures
                status :=
                  { conn.status with
                      connected := false
                      lastError := some ("Server not responding to ping (" ++
                        toString failures ++ " consecutive failures)") }
                tools := [] }
          events :=
            match conn.config.id with
            | some cid =>
                if hasEventLogger then
                  [{ serverId := cid
                     serverName := conn.config.name
                     eventType := "disconnected"
                     details := "Ping timeout after " ++ toString failures ++ " failures" }]
                else []
            | none => []
          reconnects :=
            if conn.config.autoReconnect ≠ some false then [conn.config.name] else [] }
      else
        { conn := { conn with consecutivePingFailures := some failures }
          events := []
          reconnects := [] }

/-! ## Credit manager (`src/services/creditManager.ts`)

HTTP calls to the user-management service are `FetchOutcome` oracles;
upstream tool invocations go through the `call` oracle keyed by the full
namespaced tool name. JSON text payloads are modelled as already-parsed
structures behind a `malformed` constructor for `JSON.parse` failures. -/

/-- Outcome of a `fetch` call: network error (rejected promise),
non-OK HTTP response, or an OK response with a parsed JSON body. -/
inductive FetchOutcome (α : Type) where
  | netError (msg : String)
  | httpError (status : Nat) (body : String)
  | ok (body : α)
deriving Repr, DecidableEq

/-- `estimated_cost` of a quote response (creditManager.ts lines 6-10). -/
structure EstimatedCost where
  model_id : Option String := none
  input_tokens : Option Nat := none
  output_tokens : Option Nat := none
deriving Repr, DecidableEq

/-- Per-model metrics inside `models_metrics`. -/
structure ModelMetrics where
  input_tokens : Option Nat := none
  output_tokens : Option Nat := none
deriving Repr, DecidableEq

/-- The JSON object fields the credit manager reads from a tool
response's `content[0].text`. -/
structure ParsedBody where
  success : Bool := false
  estimated_cost : Option EstimatedCost := none
  models_metrics : Option (List (String × ModelMetrics)) := none
deriving Repr, DecidableEq

/-- `content[0].text` of a tool result, as the credit manager sees it
after `JSON.parse`: absent, unparseable, or a parsed object. -/
inductive BodyText where
  | absent
  | malformed
  | obj (b : ParsedBody)
deriving Repr, DecidableEq

/-- A tool result as consumed by the credit manager: only
`content[0].text` matters to it. -/
structure CmToolResult where
  text : BodyText := BodyText.absent
deriving Repr, DecidableEq

/-- `QuotaCheckResult` (creditManager.ts lines 14-20). -/
structure QuotaCheckResult where
  allowed : Bool
  remainingDaily : Int
  remainingMonthly : Int
deriving Repr, DecidableEq

/-- Oracles for one pass through the credit manager. -/
structure CreditEnv where
  /-- `callToolFn` outcome per full namespaced tool name. -/
  call : String → Except String CmToolResult
  /-- `fetch` outcome of `POST /usage/quota`. -/
  quotaFetch : FetchOutcome QuotaCheckResult
  /-- `fetch` outcome of `POST /validate`; the body is the `valid` field. -/
  validateFetch : FetchOutcome (Option Bool)

/-- An observable side effect of the credit pipeline. -/
inductive CreditEffect where
  | calledTool (name : String)
  | quotaChecked
  | tracked (inputTokens outputTokens : Nat) (model : Option String)
deriving Repr, DecidableEq

/-- `checkCredits` (creditManager.ts lines 90-129): a network failure is
rethrown; a non-OK response throws
`Credit check failed: {status} - {body}`. -/
def checkCredits (outcome : FetchOutcome QuotaCheckResult) :
    Except String QuotaCheckResult :=
  match outcome with
  | FetchOutcome.netError m => Except.error m
  | FetchOutcome.httpError status body =>
      Except.error ("Credit check failed: " ++ toString status ++ " - " ++ body)
  | FetchOutcome.ok q => Except.ok q

/-- `validateApiKey` (creditManager.ts lines 175-197): `false` on a
rejected fetch or a non-OK response; otherwise `data.valid === true`. -/
def validateApiKey (outcome : FetchOutcome (Option Bool)) : Bool :=
  match outcome with
  | FetchOutcome.netError _ => false
  | FetchOutcome.httpError _ _ => false
  | FetchOutcome.ok valid => valid = some true

/-- `getQuote` (creditManager.ts lines 50-88): invokes
`{server}{sep}quote`; any thrown error, missing text or parse failure is
swallowed and becomes `none`; a parsed body is returned as-is (even when
`success` is false).  Also returns the tool-invocation trace. -/
def getQuote (sep serverName : String) (env : CreditEnv)
    (hasQuoteTool : Bool) : Option ParsedBody × List CreditEffect :=
  if !hasQuoteTool then (none, [])
  else
    let quoteToolName := serverName ++ sep ++ "quote"
    match env.call quoteToolName with
    | Except.error _ => (none, [CreditEffect.calledTool quoteToolName])
    | Except.ok r =>
        match r.text with
        | BodyText.absent => (none, [CreditEffect.calledTool quoteToolName])
        | BodyText.malformed => (none, [CreditEffect.calledTool quoteToolName])
        | BodyText.obj b => (some b, [CreditEffect.calledTool quoteToolName])

/-- The quote summary built by `getQuoteInfo` (creditManager.ts
lines 242-274). -/
structure QuoteInfo where
  hasQuoteTool : Bool
  inputTokens : Nat
  outputTokens : Nat
  model : Option String := none
deriving Repr, DecidableEq

/-- `getQuoteInfo` (creditManager.ts lines 242-274): only a parsed body
with `success` and a present `estimated_cost` keeps the full pipeline;
anything else degrades to the no-quote-tool shape. -/
def getQuoteInfo (sep serverName : String) (env : CreditEnv)
    (hasQuoteTool : Bool) : QuoteInfo × List CreditEffect :=
  let (quote, tr) := getQuote sep serverName env hasQuoteTool
  match quote with
  | some b =>
      match b.estimated_cost with
      | some est =>
          if b.success then
            ({ hasQuoteTool := true
               inputTokens := est.input_tokens.getD 0
               outputTokens := est.output_tokens.getD 0
               model := est.model_id }, tr)
          else ({ hasQuoteTool := false, inputTokens := 0, outputTokens := 0 }, tr)
      | none => ({ hasQuoteTool := false, inputTokens := 0, outputTokens := 0 }, tr)
  | none => ({ hasQuoteTool := false, inputTokens := 0, outputTokens := 0 }, tr)

/-- `shouldBypassCreditCheck` (creditManager.ts lines 238-240). -/
def shouldBypassCreditCheck (toolName : String) (ctx : Option RequestContext) : Bool :=
  toolName = "quote" || (ctx.bind (·.apiKey)).isNone

/-- The insufficient-credits error message
(creditManager.ts lines 362-364). -/
def mkInsufficientMsg (remainingDaily remainingMonthly : Int) : String :=
  "Insufficient credits. Daily remaining: " ++ toString remainingDaily ++
    ", Monthly remaining: " ++ toString remainingMonthly

/-- `verifySufficientCredits` (creditManager.ts lines 338-366): runs the
quota check and throws the insufficient-credits message when
`allowed` is false. -/
def verifySufficientCredits (env : CreditEnv) : Except String QuotaCheckResult :=
  match checkCredits env.quotaFetch with
  | Except.error m => Except.error m
  | Except.ok q =>
      if !q.allowed then
        Except.error (mkInsufficientMsg q.remainingDaily q.remainingMonthly)
      else Except.ok q

/-- `extractActualMetrics` (creditManager.ts lines 368-428): sums
`models_metrics` token counts when present and parseable, otherwise keeps
the quoted values; the model falls back to the first metrics key. -/
def extractActualMetrics (result : CmToolResult) (quoteInfo : QuoteInfo) :
    Nat × Nat × Option String :=
  match result.text with
  | BodyText.obj b =>
      match b.models_metrics with
      | some metrics =>
          let sums := metrics.foldl
            (fun (acc : Nat × Nat × Option String) entry =>
              (acc.1 + entry.2.input_tokens.getD 0,
               acc.2.1 + entry.2.output_tokens.getD 0,
               match acc.2.2 with
               | some m => some m
               | none => some entry.1))
            (0, 0, quoteInfo.model)
          sums
      | none => (quoteInfo.inputTokens, quoteInfo.outputTokens, quoteInfo.model)
  | _ => (quoteInfo.inputTokens, quoteInfo.outputTokens, quoteInfo.model)

/-- `executeWithFullCreditCheck` (creditManager.ts lines 294-336):
quota check, then the actual upstream call, then `trackUsage` (whose
outcome never propagates).  Returns the result together with the effect
trace after the quota check. -/
def executeWithFullCreditCheck (sep serverName toolName : String)
    (env : CreditEnv) (quoteInfo : QuoteInfo) :
    Except String CmToolResult × List CreditEffect :=
  match verifySufficientCredits env with
  | Except.error m => (Except.error m, [CreditEffect.quotaChecked])
  | Except.ok _ =>
      let fullName := serverName ++ sep ++ toolName
      match env.call fullName with
      | Except.error m =>
          (Except.error m, [CreditEffect.quotaChecked, CreditEffect.calledTool fullName])
      | Except.ok result =>
          let actual := extractActualMetrics result quoteInfo
          (Except.ok result,
            [CreditEffect.quotaChecked, CreditEffect.calledTool fullName,
             CreditEffect.tracked actual.1 actual.2.1 actual.2.2])

/-- `executeWithApiKeyValidation` (creditManager.ts lines 276-292):
validate the API key (false when absent) and forward only when valid. -/
def executeWithApiKeyValidation (sep serverName toolName : String)
    (env : CreditEnv) (ctx : Option RequestContext) :
    Except String CmToolResult × List CreditEffect :=
  let isValid :=
    match ctx.bind (·.apiKey) with
    | some _ => validateApiKey env.validateFetch
    | none => false
  if !isValid then (Except.error "Invalid API key", [])
  else
    let fullName := serverName ++ sep ++ toolName
    (env.call fullName, [CreditEffect.calledTool fullName])

/-- `executeWithCreditCheck` (creditManager.ts lines 199-236): the
dispatch between bypass, API-key-validation and full pipeline. -/
def executeWithCreditCheck (sep serverName toolName : String)
    (env : CreditEnv) (ctx : Option RequestContext) (hasQuoteTool : Bool) :
    Except String CmToolResult × List CreditEffect :=
  if shouldBypassCreditCheck toolName ctx then
    let fullName := serverName ++ sep ++ toolName
    (env.call fullName, [CreditEffect.calledTool fullName])
  else
    let (quoteInfo, tr) := getQuoteInfo sep serverName env hasQuoteTool
    if !quoteInfo.hasQuoteTool then
      let (res, tr') := executeWithApiKeyValidation sep serverName toolName env ctx
      (res, tr ++ tr')
    else
      let (res, tr') := executeWithFullCreditCheck sep serverName toolName env quoteInfo
      (res, tr ++ tr')

/-! ## Dynamic tool registry (`src/utils/serverManagement.ts`)

`registerToolsWithMcpServer` (lines 39-125).  Schemas are compared on
their canonical serialized form (`JSON.stringify` in the source), so the
embedding carries serialized schemas as strings and a conversion function
`conv` standing for `jsonSchemaToZodShape` composed with serialization.
A downstream registration handle is identified by the number drawn from a
fresh-handle counter; in the MCP SDK each `registerTool` and each
`RegisteredTool.remove` emits a `listChanged` notification, so the trace
of those two operations is exactly the notification trace. -/

/-- A registration handle held in `registeredTools`: its identity and the
serialized input schema it was registered with. -/
structure RegisteredEntry where
  handleId : Nat
  schemaSer : String
deriving Repr, DecidableEq

/-- Registry state: `registeredTools` and the handler-indirection map
`toolHandlers` (serverManagement.ts lines 10-11); handlers are opaque
identities. -/
structure RegistryState where
  registeredTools : List (String × RegisteredEntry)
  toolHandlers : List (String × Nat)
  freshHandle : Nat
deriving Repr, DecidableEq

/-- A downstream operation that makes the MCP server emit a
`listChanged` notification. -/
inductive RegOp where
  | registered (name : String) (handleId : Nat)
  | removed (name : String) (handleId : Nat)
deriving Repr, DecidableEq

/-- JS `Map.set`: replace in place, else append. -/
def mapSet {α : Type} (m : List (String × α)) (k : String) (v : α) :
    List (String × α) :=
  if m.any (fun p => p.1 = k) then
    m.map (fun p => if p.1 = k then (k, v) else p)
  else m ++ [(k, v)]

/-- JS `Map.get`. -/
def mapGet {α : Type} (m : List (String × α)) (k : String) : Option α :=
  (m.find? (fun p => p.1 = k)).map (·.2)

/-- JS `Map.delete`. -/
def mapDelete {α : Type} (m : List (String × α)) (k : String) :
    List (String × α) :=
  m.filter (fun p => p.1 ≠ k)

/-- A tool arriving at the registry: its aggregated name, raw input
schema (opaque serialized JSON) and handler identity. -/
structure IncomingTool where
  name : String
  inputSchema : String
  handler : Nat
deriving Repr, DecidableEq

/-- The per-tool body of `registerToolsWithMcpServer`'s loop
(serverManagement.ts lines 47-123): update the handler map, then
- already registered with the same serialized schema: keep the existing
  registration untouched (`continue`);
- already registered with a changed schema: remove and re-register;
- not registered: register.
`conv` is `jsonSchemaToZodShape` followed by `JSON.stringify`. -/
def processTool (conv : String → String) (st : RegistryState)
    (t : IncomingTool) : RegistryState × List RegOp :=
  let zodSer := conv t.inputSchema
  let handlers := mapSet st.toolHandlers t.name t.handler
  match mapGet st.registeredTools t.name with
  | some existing =>
      if existing.schemaSer ≠ zodSer then
        let afterRemove := mapDelete st.registeredTools t.name
        ({ registeredTools :=
             mapSet afterRemove t.name ⟨st.freshHandle, zodSer⟩
           toolHandlers := handlers
           freshHandle := st.freshHandle + 1 },
         [RegOp.removed t.name existing.handleId,
          RegOp.registered t.name st.freshHandle])
      else
        ({ st with toolHandlers := handlers }, [])
  | none =>
      ({ registeredTools := mapSet st.registeredTools t.name ⟨st.freshHandle, zodSer⟩
         toolHandlers := handlers
         freshHandle := st.freshHandle + 1 },
       [RegOp.registered t.name st.freshHandle])

/-- `registerToolsWithMcpServer` (serverManagement.ts lines 39-125): the
loop over the server's aggregated tools. -/
def registerToolsFor (conv : String → String) (st : RegistryState) :
    List IncomingTool → RegistryState × List RegOp
  | [] => (st, [])
  | t :: rest =>
      let (st', ops) := processTool conv st t
      let (st'', ops') := registerToolsFor conv st' rest
      (st'', ops ++ ops')

/-! ## Multi-instance sync engine (`src/services/syncService.ts`)

`processUnprocessedEvents` (lines 92-114), `markEventProcessed`
(lines 186-201) and the selection query.  The relational store is a list
of event rows; `created_at` is an abstract timestamp.  Dispatching an
event to `processEvent` (which drives the client manager) is recorded in
the application trace by event id. -/

/-- A `sync_events` row. -/
structure SyncEvent where
  id : Nat
  event_type : String
  instance_id : String
  created_at : Nat
  processed_at : Option Nat := none
  processed_by : List String := []
deriving Repr, DecidableEq

/-- `markEventProcessed` (syncService.ts lines 186-201) on one row:
`array_append` to `processed_by` and stamp `processed_at` only when it is
still NULL. -/
def markRow (me : String) (now : Nat) (eid : Nat) (e : SyncEvent) : SyncEvent :=
  if e.id = eid then
    { e with
        processed_by := e.processed_by ++ [me]
        processed_at := some (e.processed_at.getD now) }
  else e

/-- `markEventProcessed`'s UPDATE over the whole table. -/
def markEventProcessed (me : String) (now : Nat) (eid : Nat)
    (db : List SyncEvent) : List SyncEvent :=
  db.map (markRow me now eid)

/-- Insert into a list sorted by `created_at` (ascending). -/
def insertByCreated (e : SyncEvent) : List SyncEvent → List SyncEvent
  | [] => [e]
  | x :: xs =>
      if e.created_at ≤ x.created_at then e :: x :: xs
      else x :: insertByCreated e xs

/-- `ORDER BY created_at ASC`. -/
def sortByCreated : List SyncEvent → List SyncEvent
  | [] => []
  | x :: xs => insertByCreated x (sortByCreated xs)

/-- The poll query (syncService.ts lines 94-100):
`WHERE processed_by IS NULL OR NOT ($1 = ANY(processed_by))
 ORDER BY created_at ASC LIMIT 100`.
A NULL `processed_by` is the empty set. -/
def selectUnprocessed (me : String) (db : List SyncEvent) : List SyncEvent :=
  (sortByCreated (db.filter (fun e => !(e.processed_by.contains me)))).take 100

/-- The loop of `processUnprocessedEvents` (syncService.ts lines 102-110)
over an already-selected batch: own events are acknowledged without
acting; foreign events are dispatched to `processEvent` (recorded in the
trace) and then acknowledged.  Returns the updated table and the trace of
dispatched event ids, in order. -/
def runEvents (me : String) (now : Nat) :
    List SyncEvent → List SyncEvent → List SyncEvent × List Nat
  | db, [] => (db, [])
  | db, e :: rest =>
      if e.instance_id = me then
        runEvents me now (markEventProcessed me now e.id db) rest
      else
        let (db', tr) := runEvents me now (markEventProcessed me now e.id db) rest
        (db', e.id :: tr)

/-- `processUnprocessedEvents` (syncService.ts lines 92-114): select the
batch, then run the loop. -/
def processUnprocessedEvents (me : String) (now : Nat)
    (db : List SyncEvent) : List SyncEvent × List Nat :=
  runEvents me now db (selectUnprocessed me db)

/-- All acknowledgement marks a batch applies to a single row, in batch
order; the row-level view of `runEvents`' repeated table UPDATEs. -/
def applyMarks (me : String) (now : Nat) (r : SyncEvent)
    (evs : List SyncEvent) : SyncEvent :=
  evs.foldl (fun r' ev => markRow me now ev.id r') r

/-! ## Concrete fixtures

Inputs taken from the repository's own test suites, used to evaluate the
embedded code at specific points. -/

/-- The `test-server` configuration of `clientManager.test.ts`. -/
def tsConfig : McpServerConfig :=
  { name := "test-server", url := "http://localhost:3000/mcp", enabled := some true }

/-- An upstream catalog exposing `stats` and `quote` alongside a regular
tool (clientManager.test.ts, "should filter out both stats and quote
tools"). -/
def statsQuoteTools : List UpstreamTool :=
  [ { name := "stats", description := "Get server statistics" }
  , { name := "quote", description := "Get quote for tool usage" }
  , { name := "regular-tool", description := "A regular tool" } ]

/-- Connection map after connecting `test-server` whose `listTools`
returned `statsQuoteTools`. -/
def connsWithStatsQuote : ConnMap :=
  [("test-server", connectedConnection tsConfig ":" statsQuoteTools)]

/-- A known-but-disconnected connection for `test-server`. -/
def disconnConn : Connection :=
  { config := tsConfig
    status :=
      { name := "test-server", url := "http://localhost:3000/mcp"
        connected := false, lastError := some "Connection failed", toolsCount := 0 }
    tools := [] }

/-- Connection map holding only the disconnected `test-server`. -/
def connsDisconnected : ConnMap := [("test-server", disconnConn)]

/-- Credit environment of the spec's credit-denial scenario: the quote
tool prices the call, the quota check denies with remaining 0 / 50. -/
def denyEnv : CreditEnv :=
  { call := fun name =>
      if name = "test-server-->quote" then
        Except.ok
          { text := BodyText.obj
              { success := true
                estimated_cost := some
                  { model_id := some "m"
                    input_tokens := some 1000
                    output_tokens := some 500 } } }
      else Except.ok { text := BodyText.absent }
    quotaFetch := FetchOutcome.ok
      { allowed := false, remainingDaily := 0, remainingMonthly := 50 }
    validateFetch := FetchOutcome.ok (some true) }

/-- Credit environment where the upstream quote invocation throws but the
actual tool call would succeed, and the API key validates. -/
def quoteFailEnv : CreditEnv :=
  { call := fun name =>
      if name = "test-server-->quote" then Except.error "quote boom"
      else Except.ok { text := BodyText.absent }
    quotaFetch := FetchOutcome.netError "quota service never consulted"
    validateFetch := FetchOutcome.ok (some true) }

/-- A request context carrying an API key. -/
def keyedCtx : RequestContext :=
  { userId := some "user-123", userEmail := some "test@example.com"
    apiKey := some "test_api_key" }

/-- Registry state with one registered tool, for the unchanged-schema
re-registration scenario (serverManagement.test.ts). -/
def regState0 : RegistryState :=
  { registeredTools := [("test-server-->my-tool", { handleId := 0, schemaSer := "shape-v1" })]
    toolHandlers := [("test-server-->my-tool", 1)]
    freshHandle := 1 }

/-- The same tool arriving again with the same schema but a new handler. -/
def reRegTool : IncomingTool :=
  { name := "test-server-->my-tool", inputSchema := "shape-v1", handler := 2 }

/-- A one-event sync table: event 1 published by instance `I`. -/
def syncDb0 : List SyncEvent :=
  [{ id := 1, event_type := "SERVER_REGISTERED", instance_id := "I", created_at := 10 }]

/-- The connected connection fixture used by ping-failure evaluation:
two prior consecutive failures, event id present. -/
def pingConn0 : Connection :=
  { config := { tsConfig with id := some "server-uuid-1", autoReconnect := some true }
    status :=
      { name := "test-server", url := "http://localhost:3000/mcp"
        connected := true, toolsCount := 1 }
    tools := [{ name := "test-server:add", description := "[test-server] add"
                originalName := "add" }]
    consecutivePingFailures := some 2 }

/-! # Theorems -/

/-! ## Shared lemmas about `getAllTools` -/

theorem getAllTools_append (l₁ l₂ : ConnMap) :
    getAllTools (l₁ ++ l₂) = getAllTools l₁ ++ getAllTools l₂ := by
  induction l₁ with
  | nil => simp [getAllTools]
  | cons p rest ih =>
      simp only [List.cons_append, getAllTools]
      by_cases h : p.2.status.connected <;> simp [h, ih]

theorem mem_getAllTools {conns : ConnMap} {t : AggregatedTool}
    (h : t ∈ getAllTools conns) :
    ∃ p ∈ conns, p.2.status.connected = true ∧ t ∈ p.2.tools := by
  induction conns with
  | nil => simp [getAllTools] at h
  | cons p rest ih =>
      simp only [getAllTools] at h
      by_cases hc : p.2.status.connected
      · rw [if_pos hc] at h
        rcases List.mem_append.mp h with h₁ | h₂
        · exact ⟨p, List.mem_cons_self _ _, hc, h₁⟩
        · obtain ⟨q, hq, hqc, hqt⟩ := ih h₂
          exact ⟨q, List.mem_cons_of_mem _ hq, hqc, hqt⟩
      · rw [if_neg hc] at h
        obtain ⟨q, hq, hqc, hqt⟩ := ih h
        exact ⟨q, List.mem_cons_of_mem _ hq, hqc, hqt⟩

theorem getAllTools_length_eq_sum (conns : ConnMap) :
    (getAllTools conns).length =
      ((conns.filter (fun p => p.2.status.connected)).map
        (fun p => p.2.tools.length)).sum := by
  induction conns with
  | nil => simp [getAllTools]
  | cons p rest ih =>
      simp only [getAllTools, List.filter_cons]
      by_cases h : p.2.status.connected = true <;>
        simp [h, List.length_append, ih]

/-! ## C1 — stats/quote filtering of the aggregated tool list -/

/-- C1: the claim states that tools originally named `stats` or `quote`
never appear in `getAllTools`.  Evaluating the embedded
`loadServerTools`/`getAllTools` of `clientManager.ts` (lines 193-254 and
268-278) at the repository test fixture — an upstream exposing `stats`,
`quote` and `regular-tool` — shows the aggregated list KEEPS
`test-server:stats` and `test-server:quote`: the source maps
`toolsResult.tools` without any filter, contradicting the repository's
own tests (`clientManager.test.ts`, "stats tool filtering" /
"quote tool filtering"). -/
theorem c1_stats_quote_not_filtered :
    (getAllTools connsWithStatsQuote).map (fun t => t.name) =
      ["test-server:stats", "test-server:quote", "test-server:regular-tool"]
    ∧ "test-server:stats" ∈ (getAllTools connsWithStatsQuote).map (fun t => t.name)
    ∧ "test-server:quote" ∈ (getAllTools connsWithStatsQuote).map (fun t => t.name) := by
  refine ⟨rfl, ?_, ?_⟩ <;> decide

/-! ## C4 — `callTool` dispatch, lazy connect and reconnect -/

/-- C4: the claim states that `callTool` lazily connects to
repository-known servers and attempts one reconnect for a known but
disconnected server before forwarding.  Evaluating the embedded
`callTool` (`clientManager.ts` lines 283-300) at a known-but-disconnected
`test-server` shows it throws `Server test-server is not connected`
immediately — the function performs no repository lookup, no lazy
connect and no reconnect attempt on any path (its only inputs are the
in-memory map and the upstream oracle). -/
theorem c4_callTool_throws_without_reconnect :
    callTool connsDisconnected ":" none none "test-server:test-tool-1" "args0"
        (fun _ _ => Except.ok {}) =
      (Except.error "Server test-server is not connected", []) := by
  rfl

/-! ## C5 — unchanged-schema re-registration preserves the handle -/

/-- C5: when `registerToolsWithMcpServer` processes a tool that is
already registered and whose newly converted input schema serializes to
the registered one, the loop body (`serverManagement.ts` lines 47-67)
keeps `registeredTools` (and the fresh-handle counter) untouched, updates
only the handler-indirection map, and performs no downstream
register/remove operation — hence no `listChanged` notification. -/
theorem c5_same_schema_preserves_handle (conv : String → String)
    (st : RegistryState) (t : IncomingTool) (existing : RegisteredEntry)
    (hreg : mapGet st.registeredTools t.name = some existing)
    (hsch : existing.schemaSer = conv t.inputSchema) :
    processTool conv st t =
      ({ st with toolHandlers := mapSet st.toolHandlers t.name t.handler }, []) := by
  simp [processTool, hreg, hsch]

/-- Witness for C5 at the repository's re-registration fixture: the same
tool arrives again with an unchanged schema and a new handler. -/
theorem c5_witness :
    processTool (fun s => s) regState0 reRegTool =
      ({ regState0 with
          toolHandlers := mapSet regState0.toolHandlers reRegTool.name reRegTool.handler },
        []) :=
  c5_same_schema_preserves_handle (fun s => s) regState0 reRegTool
    { handleId := 0, schemaSer := "shape-v1" } (by decide) rfl

/-! ## C2 — quota denial halts the full credit pipeline -/

/-- C2: in `executeWithFullCreditCheck` (`creditManager.ts`
lines 294-336), whenever the quota check returns `allowed = false`, the
invocation fails with the insufficient-credits message — which contains
both the remaining daily and the remaining monthly values — the upstream
tool is never invoked and no usage-tracking call is made: the effect
trace is exactly the quota check. -/
theorem c2_quota_denial_blocks_call (sep serverName toolName : String)
    (env : CreditEnv) (qi : QuoteInfo) (q : QuotaCheckResult)
    (hq : env.quotaFetch = FetchOutcome.ok q) (hdeny : q.allowed = false) :
    (executeWithFullCreditCheck sep serverName toolName env qi).1 =
        Except.error (mkInsufficientMsg q.remainingDaily q.remainingMonthly)
      ∧ occursIn (toString q.remainingDaily)
          (mkInsufficientMsg q.remainingDaily q.remainingMonthly)
      ∧ occursIn (toString q.remainingMonthly)
          (mkInsufficientMsg q.remainingDaily q.remainingMonthly)
      ∧ (executeWithFullCreditCheck sep serverName toolName env qi).2 =
          [CreditEffect.quotaChecked] := by
  refine ⟨?_, ?_, ?_, ?_⟩
  · simp [executeWithFullCreditCheck, verifySufficientCredits, checkCredits, hq, hdeny]
  · exact ⟨"Insufficient credits. Daily remaining: ",
      ", Monthly remaining: " ++ toString q.remainingMonthly,
      by simp [mkInsufficientMsg, String.append_assoc]⟩
  · exact ⟨"Insufficient credits. Daily remaining: " ++ toString q.remainingDaily ++
        ", Monthly remaining: ", "",
      by simp [mkInsufficientMsg, String.append_assoc]⟩
  · simp [executeWithFullCreditCheck, verifySufficientCredits, checkCredits, hq, hdeny]

/-- Witness for C2 at the spec's credit-denial scenario (quota denies
with remaining daily 0 and monthly 50). -/
theorem c2_witness :
    (executeWithFullCreditCheck "-->" "test-server" "test-tool" denyEnv
        { hasQuoteTool := true, inputTokens := 1000, outputTokens := 500
          model := some "m" }).1 =
      Except.error (mkInsufficientMsg 0 50)
    ∧ (executeWithFullCreditCheck "-->" "test-server" "test-tool" denyEnv
        { hasQuoteTool := true, inputTokens := 1000, outputTokens := 500
          model := some "m" }).2 = [CreditEffect.quotaChecked] := by
  have h := c2_quota_denial_blocks_call "-->" "test-server" "test-tool" denyEnv
    { hasQuoteTool := true, inputTokens := 1000, outputTokens := 500, model := some "m" }
    { allowed := false, remainingDaily := 0, remainingMonthly := 50 } rfl rfl
  exact ⟨h.1, h.2.2.2⟩

/-! ## C10 — unreachable user-management fails closed -/

/-- C10: `validateApiKey` (`creditManager.ts` lines 175-197) returns
`false` — rather than raising — when the user-management request fails
(network error or non-OK status); consequently, in the no-quote-tool path
(`executeWithCreditCheck` with `hasQuoteTool = false`,
`executeWithApiKeyValidation` lines 276-292), every call made with an API
key while the service is unreachable fails with `Invalid API key`, for
any key whatsoever. -/
theorem c10_unreachable_service_fails_closed
    (outcome : FetchOutcome (Option Bool))
    (hfail : (∃ m, outcome = FetchOutcome.netError m) ∨
      (∃ s b, outcome = FetchOutcome.httpError s b))
    (sep serverName toolName : String) (env : CreditEnv)
    (ctx : RequestContext) (k : String)
    (henv : env.validateFetch = outcome) (hkey : ctx.apiKey = some k)
    (htool : toolName ≠ "quote") :
    validateApiKey outcome = false
    ∧ (executeWithCreditCheck sep serverName toolName env (some ctx) false).1 =
        Except.error "Invalid API key" := by
  have hv : validateApiKey outcome = false := by
    rcases hfail with ⟨m, rfl⟩ | ⟨s, b, rfl⟩ <;> rfl
  refine ⟨hv, ?_⟩
  simp [executeWithCreditCheck, shouldBypassCreditCheck, htool, hkey,
    getQuoteInfo, getQuote, executeWithApiKeyValidation, henv, hv]

/-- Witness for C10: a network error during validation rejects the call
even though the environment would have validated the key. -/
theorem c10_witness :
    validateApiKey (FetchOutcome.netError "ECONNREFUSED") = false
    ∧ (executeWithCreditCheck "-->" "test-server" "test-tool"
        { call := fun _ => Except.ok { text := BodyText.absent }
          quotaFetch := FetchOutcome.netError "unused"
          validateFetch := FetchOutcome.netError "ECONNREFUSED" }
        (some keyedCtx) false).1 = Except.error "Invalid API key" :=
  c10_unreachable_service_fails_closed (FetchOutcome.netError "ECONNREFUSED")
    (Or.inl ⟨"ECONNREFUSED", rfl⟩) "-->" "test-server" "test-tool"
    { call := fun _ => Except.ok { text := BodyText.absent }
      quotaFetch := FetchOutcome.netError "unused"
      validateFetch := FetchOutcome.netError "ECONNREFUSED" }
    keyedCtx "test_api_key" rfl rfl (by decide)

/-! ## C3 — audit rows on both return paths of `callTool` -/

/-- C3: for every invocation of `callTool` (`clientManager.ts`
lines 302-348) that reaches the forwarding phase — the namespaced name
splits, the server is known and connected — with an audit logger
configured and enabled (`auditLogger.ts` `logToolCall`, lines 93-111),
exactly one audit row is enqueued on every return path: status
`success` with the response when the upstream call returns, status
`error` with the error message when it throws. -/
theorem c3_audit_row_on_every_path (conns : ConnMap) (sep name : String)
    (cfg : AuditConfig) (ctx : Option RequestContext) (args : ToolArgs)
    (upstream : String → String → Except String RawToolResult)
    (serverName actualToolName : String) (conn : Connection)
    (hsplit : splitFirst name sep = some (serverName, actualToolName))
    (hfound : connLookup conns serverName = some conn)
    (hc : conn.status.connected = true)
    (hen : cfg.enabled = true) (hresp : cfg.logResponses = true) :
    (callTool conns sep (some cfg) ctx name args upstream).2.length = 1
    ∧ (∀ raw, upstream serverName actualToolName = Except.ok raw →
        (callTool conns sep (some cfg) ctx name args upstream).1 =
            Except.ok (ensureContent raw)
        ∧ ∃ row, (callTool conns sep (some cfg) ctx name args upstream).2 = [row]
            ∧ row.status = "success"
            ∧ row.response = some (ensureContent raw)
            ∧ row.errorMessage = none)
    ∧ (∀ m, upstream serverName actualToolName = Except.error m →
        (callTool conns sep (some cfg) ctx name args upstream).1 = Except.error m
        ∧ ∃ row, (callTool conns sep (some cfg) ctx name args upstream).2 = [row]
            ∧ row.status = "error"
            ∧ row.errorMessage = some m
            ∧ row.response = none) := by
  have hmain : ∀ r, upstream serverName actualToolName = r →
      callTool conns sep (some cfg) ctx name args upstream =
      (match r with
       | Except.ok raw =>
          (Except.ok (ensureContent raw),
            [{ serverName := serverName
               toolName := actualToolName
               arguments := if cfg.logArguments then some args else none
               response := some (ensureContent raw)
               status := "success"
               errorMessage := none
               userId := ctx.bind (·.userId)
               userEmail := ctx.bind (·.userEmail)
               apiKey := ctx.bind (·.apiKey) }])
       | Except.error m =>
          (Except.error m,
            [{ serverName := serverName
               toolName := actualToolName
               arguments := if cfg.logArguments then some args else none
               response := none
               status := "error"
               errorMessage := some m
               userId := ctx.bind (·.userId)
               userEmail := ctx.bind (·.userEmail)
               apiKey := ctx.bind (·.apiKey) }])) := by
    intro r hr
    simp only [callTool]
    rw [hsplit]
    simp only
    rw [hfound]
    simp only [hc]
    rw [hr]
    cases r <;> simp [logToolCall, hen, hresp]
  refine ⟨?_, ?_, ?_⟩
  · cases hup : upstream serverName actualToolName with
    | ok raw => rw [hmain _ hup]; rfl
    | error m => rw [hmain _ hup]; rfl
  · intro raw hup
    rw [hmain _ hup]
    exact ⟨rfl, _, rfl, rfl, rfl, rfl⟩
  · intro m hup
    rw [hmain _ hup]
    exact ⟨rfl, _, rfl, rfl, rfl, rfl⟩

/-- Witness for C3 on the connected fixture: with an enabled audit
logger, a successful upstream call produces exactly one audit row. -/
theorem c3_witness :
    (callTool connsWithStatsQuote ":"
        (some { enabled := true }) (some keyedCtx)
        "test-server:regular-tool" "args0"
        (fun _ _ => Except.ok { rawContent := some [{ type := "text", text := some "ok" }] })).2.length = 1 :=
  (c3_audit_row_on_every_path connsWithStatsQuote ":" "test-server:regular-tool"
    { enabled := true } (some keyedCtx) "args0"
    (fun _ _ => Except.ok { rawContent := some [{ type := "text", text := some "ok" }] })
    "test-server" "regular-tool"
    (connectedConnection tsConfig ":" statsQuoteTools)
    (by decide) (by decide) rfl rfl rfl).1

/-! ## C9 — only connected servers contribute tools -/

/-- C9: `getAllTools` (`clientManager.ts` lines 268-278) only returns
tools of connections whose `status.connected` is true; the connection
stored by a failed initial connect (lines 164-183) is disconnected with
an empty tool list, still appears in `getServerStatuses` and contributes
nothing to `getAllTools`; and `getStats().totalTools` (lines 582-592) is
the sum of the connected connections' tool counts. -/
theorem c9_only_connected_tools (conns : ConnMap) (config : McpServerConfig)
    (err : String) :
    (∀ t ∈ getAllTools conns,
        ∃ p ∈ conns, p.2.status.connected = true ∧ t ∈ p.2.tools)
    ∧ (failedConnection config err).status.connected = false
    ∧ (failedConnection config err).tools = []
    ∧ getAllTools (conns ++ [(config.name, failedConnection config err)]) =
        getAllTools conns
    ∧ getServerStatuses (conns ++ [(config.name, failedConnection config err)]) =
        getServerStatuses conns ++ [(failedConnection config err).status]
    ∧ (getStats conns).totalTools =
        ((conns.filter (fun p => p.2.status.connected)).map
          (fun p => p.2.tools.length)).sum := by
  refine ⟨fun t ht => mem_getAllTools ht, rfl, rfl, ?_, ?_, ?_⟩
  · rw [getAllTools_append]
    simp [getAllTools, failedConnection]
  · simp [getServerStatuses]
  · exact getAllTools_length_eq_sum conns

/-- Witness for C9: a tool found in `getAllTools` of the fixture map
belongs to a connected connection. -/
theorem c9_witness :
    ∃ p ∈ connsWithStatsQuote, p.2.status.connected = true ∧
      ({ name := "test-server:regular-tool"
         description := "[test-server] A regular tool"
         originalName := "regular-tool"
         inputSchema := "" } : AggregatedTool) ∈ p.2.tools :=
  (c9_only_connected_tools connsWithStatsQuote tsConfig "boom").1 _ (by decide)

/-! ## C8 — max consecutive ping failures disconnect the server -/

/-- C8: in the health-check loop (`clientManager.ts` `pingAllServers`,
lines 458-530), when a connected server's consecutive ping-failure
counter reaches `maxConsecutivePingFailures` (whose constructor default,
line 54, is 3), the connection transitions to disconnected, its tool
list is cleared, one disconnection server event is emitted (event logger
configured, server id present), and exactly one reconnect is attempted
iff `autoReconnect` is enabled (not explicitly `false`). -/
theorem c8_ping_failure_disconnects (maxFailures : Nat) (conn : Connection)
    (msg cid : String)
    (_hconn : conn.status.connected = true)
    (hid : conn.config.id = some cid)
    (hreach : conn.consecutivePingFailures.getD 0 + 1 = maxFailures) :
    (pingConnectedStep maxFailures true conn (Except.error msg)).conn.status.connected = false
    ∧ (pingConnectedStep maxFailures true conn (Except.error msg)).conn.tools = []
    ∧ (pingConnectedStep maxFailures true conn (Except.error msg)).events =
        [{ serverId := cid
           serverName := conn.config.name
           eventType := "disconnected"
           details := "Ping timeout after " ++
             toString (conn.consecutivePingFailures.getD 0 + 1) ++ " failures" }]
    ∧ (conn.config.autoReconnect ≠ some false →
        (pingConnectedStep maxFailures true conn (Except.error msg)).reconnects =
          [conn.config.name])
    ∧ (conn.config.autoReconnect = some false →
        (pingConnectedStep maxFailures true conn (Except.error msg)).reconnects = [])
    ∧ mkMaxPingFailures none = 3 := by
  have hge : conn.consecutivePingFailures.getD 0 + 1 ≥ maxFailures := hreach.ge
  refine ⟨?_, ?_, ?_, ?_, ?_, rfl⟩ <;>
    simp [pingConnectedStep, hge, hid]

/-- Witness for C8: two prior failures, limit 3, auto-reconnect on — the
third failure disconnects, clears tools, emits the event and attempts
one reconnect. -/
theorem c8_witness :
    (pingConnectedStep 3 true pingConn0 (Except.error "Ping failed")).conn.status.connected = false
    ∧ (pingConnectedStep 3 true pingConn0 (Except.error "Ping failed")).conn.tools = []
    ∧ (pingConnectedStep 3 true pingConn0 (Except.error "Ping failed")).events =
        [{ serverId := "server-uuid-1"
           serverName := "test-server"
           eventType := "disconnected"
           details := "Ping timeout after 3 failures" }]
    ∧ (pingConnectedStep 3 true pingConn0 (Except.error "Ping failed")).reconnects =
        ["test-server"] := by
  have h := c8_ping_failure_disconnects 3 pingConn0 "Ping failed" "server-uuid-1"
    rfl rfl rfl
  exact ⟨h.1, h.2.1, h.2.2.1, h.2.2.2.1 (by decide)⟩

/-! ## C7 — which credit-pipeline failures are surfaced -/

/-- C7 counterexample: a step-1 failure (the upstream `quote` invocation
throws) is NOT surfaced to the caller — with an API key present and a
quote-capable upstream, `executeWithCreditCheck` still returns the
upstream result successfully, because `getQuote` (`creditManager.ts`
lines 84-87) swallows the error and the pipeline degrades to the
API-key-validation path. -/
theorem c7_counterexample :
    quoteFailEnv.call "test-server-->quote" = Except.error "quote boom"
    ∧ (executeWithCreditCheck "-->" "test-server" "test-tool" quoteFailEnv
        (some keyedCtx) true).1 = Except.ok { text := BodyText.absent } := by
  exact ⟨rfl, rfl⟩

/-- C7 (amended): failures of step 2 — the external quota check — are
surfaced as errors to the caller; a failure of step 1 — the quote
invocation — is not surfaced: the call falls back to the
API-key-validation path, succeeding when the key validates and failing
with `Invalid API key` otherwise. -/
theorem c7_amended_step2_surfaced_step1_falls_back
    (sep server tool : String) (env : CreditEnv) (ctx : RequestContext)
    (k : String) (hk : ctx.apiKey = some k) (ht : tool ≠ "quote") :
    (∀ b est m,
        env.call (server ++ sep ++ "quote") = Except.ok { text := BodyText.obj b } →
        b.success = true → b.estimated_cost = some est →
        checkCredits env.quotaFetch = Except.error m →
        (executeWithCreditCheck sep server tool env (some ctx) true).1 =
          Except.error m)
    ∧ (∀ qm, env.call (server ++ sep ++ "quote") = Except.error qm →
        (executeWithCreditCheck sep server tool env (some ctx) true).1 =
          (if validateApiKey env.validateFetch = true then
            env.call (server ++ sep ++ tool)
          else Except.error "Invalid API key")) := by
  constructor
  · intro b est m hq hsucc hest hcheck
    simp [executeWithCreditCheck, shouldBypassCreditCheck, ht, hk,
      getQuoteInfo, getQuote, hq, hsucc, hest,
      executeWithFullCreditCheck, verifySufficientCredits, hcheck]
  · intro qm hq
    cases hv : validateApiKey env.validateFetch <;>
      simp [executeWithCreditCheck, shouldBypassCreditCheck, ht, hk,
        getQuoteInfo, getQuote, hq, executeWithApiKeyValidation, hv]

/-- Witness for the amended C7: in `quoteFailEnv` the quote invocation
throws and the call falls back to validation, which accepts — the
upstream result is returned. -/
theorem c7_witness :
    (executeWithCreditCheck "-->" "test-server" "test-tool" quoteFailEnv
        (some keyedCtx) true).1 =
      (if validateApiKey quoteFailEnv.validateFetch = true then
        quoteFailEnv.call "test-server-->test-tool"
      else Except.error "Invalid API key") :=
  (c7_amended_step2_surfaced_step1_falls_back "-->" "test-server" "test-tool"
    quoteFailEnv keyedCtx "test_api_key" rfl (by decide)).2 "quote boom" rfl

/-! ## C6 — at-most-once application of sync events

Supporting lemmas about the selection query, the acknowledgement UPDATE
and the processing loop. -/

theorem insertByCreated_perm (e : SyncEvent) (l : List SyncEvent) :
    List.Perm (insertByCreated e l) (e :: l) := by
  induction l with
  | nil => rfl
  | cons y ys ih =>
      simp only [insertByCreated]
      by_cases h : e.created_at ≤ y.created_at
      · rw [if_pos h]
      · rw [if_neg h]
        exact (ih.cons y).trans (List.Perm.swap e y ys)

theorem sortByCreated_perm (l : List SyncEvent) : List.Perm (sortByCreated l) l := by
  induction l with
  | nil => rfl
  | cons x xs ih =>
      exact (insertByCreated_perm x (sortByCreated xs)).trans (ih.cons x)

theorem mem_selectUnprocessed {me : String} {db : List SyncEvent}
    {e : SyncEvent} (h : e ∈ selectUnprocessed me db) :
    e ∈ db ∧ e.processed_by.contains me = false := by
  unfold selectUnprocessed at h
  have h1 := List.mem_of_mem_take h
  have h2 := (sortByCreated_perm _).mem_iff.mp h1
  have h3 := List.mem_filter.mp h2
  exact ⟨h3.1, by simpa using h3.2⟩

theorem runEvents_eq (me : String) (now : Nat) (evs : List SyncEvent) :
    ∀ db, runEvents me now db evs =
      (evs.foldl (fun d ev => markEventProcessed me now ev.id d) db,
       (evs.filter (fun ev => !(ev.instance_id == me))).map (·.id)) := by
  induction evs with
  | nil => intro db; rfl
  | cons e rest ih =>
      intro db
      by_cases h : e.instance_id = me <;>
        simp [runEvents, h, ih, List.filter_cons]

theorem foldl_mark_eq_map (me : String) (now : Nat) (evs : List SyncEvent) :
    ∀ db, evs.foldl (fun d ev => markEventProcessed me now ev.id d) db =
      db.map (fun r => applyMarks me now r evs) := by
  induction evs with
  | nil => intro db; simp [applyMarks]
  | cons e rest ih =>
      intro db
      simp only [List.foldl_cons]
      rw [ih]
      simp [markEventProcessed, List.map_map, applyMarks, Function.comp]

theorem applyMarks_cons (me : String) (now : Nat) (r ev : SyncEvent)
    (evs : List SyncEvent) :
    applyMarks me now r (ev :: evs) =
      applyMarks me now (markRow me now ev.id r) evs := rfl

theorem markRow_id (me : String) (now eid : Nat) (r : SyncEvent) :
    (markRow me now eid r).id = r.id := by
  unfold markRow; split <;> rfl

theorem markRow_nomatch {eid : Nat} {r : SyncEvent} (me : String) (now : Nat)
    (h : ¬ r.id = eid) : markRow me now eid r = r := by
  unfold markRow; rw [if_neg h]

theorem applyMarks_id (me : String) (now : Nat) (evs : List SyncEvent) :
    ∀ r : SyncEvent, (applyMarks me now r evs).id = r.id := by
  induction evs with
  | nil => intro r; rfl
  | cons ev rest ih =>
      intro r
      rw [applyMarks_cons, ih, markRow_id]

theorem mem_pb_markRow {me : String} {r : SyncEvent} (now eid : Nat)
    (h : me ∈ r.processed_by) : me ∈ (markRow me now eid r).processed_by := by
  unfold markRow; split
  · exact List.mem_append.mpr (Or.inl h)
  · exact h

theorem pb_markRow_self {r : SyncEvent} {eid : Nat} (me : String) (now : Nat)
    (h : r.id = eid) : me ∈ (markRow me now eid r).processed_by := by
  unfold markRow; rw [if_pos h]; simp

theorem mem_pb_applyMarks_stable {me : String} (now : Nat)
    (evs : List SyncEvent) :
    ∀ r : SyncEvent, me ∈ r.processed_by →
      me ∈ (applyMarks me now r evs).processed_by := by
  induction evs with
  | nil => intro r h; exact h
  | cons ev rest ih =>
      intro r h
      rw [applyMarks_cons]
      exact ih _ (mem_pb_markRow now ev.id h)

theorem mem_pb_applyMarks_self {me : String} {e : SyncEvent} (now : Nat)
    (evs : List SyncEvent) :
    ∀ r : SyncEvent, e ∈ evs → r.id = e.id →
      me ∈ (applyMarks me now r evs).processed_by := by
  induction evs with
  | nil => intro r h; cases h
  | cons ev rest ih =>
      intro r hmem hid
      rw [applyMarks_cons]
      rcases List.mem_cons.mp hmem with heq | hrest
      · subst heq
        exact mem_pb_applyMarks_stable now rest _ (pb_markRow_self me now hid)
      · exact ih _ hrest (by rw [markRow_id]; exact hid)

theorem pa_markRow_self {r : SyncEvent} {eid : Nat} (me : String) (now : Nat)
    (h : r.id = eid) :
    (markRow me now eid r).processed_at = some (r.processed_at.getD now) := by
  unfold markRow; rw [if_pos h]

theorem pa_markRow_stable {r : SyncEvent} {t : Nat} (me : String) (now eid : Nat)
    (h : r.processed_at = some t) :
    (markRow me now eid r).processed_at = some t := by
  unfold markRow; split
  · simp [h]
  · exact h

theorem pa_applyMarks_stable {me : String} {t : Nat} (now : Nat)
    (evs : List SyncEvent) :
    ∀ r : SyncEvent, r.processed_at = some t →
      (applyMarks me now r evs).processed_at = some t := by
  induction evs with
  | nil => intro r h; exact h
  | cons ev rest ih =>
      intro r h
      rw [applyMarks_cons]
      exact ih _ (pa_markRow_stable me now ev.id h)

theorem pa_applyMarks_self {me : String} {e : SyncEvent} (now : Nat)
    (evs : List SyncEvent) :
    ∀ r : SyncEvent, e ∈ evs → r.id = e.id →
      (applyMarks me now r evs).processed_at = some (r.processed_at.getD now) := by
  induction evs with
  | nil => intro r h; cases h
  | cons ev rest ih =>
      intro r hmem hid
      rw [applyMarks_cons]
      rcases List.mem_cons.mp hmem with heq | hrest
      · subst heq
        exact pa_applyMarks_stable now rest _ (pa_markRow_self me now hid)
      · by_cases hev : r.id = ev.id
        · exact pa_applyMarks_stable now rest _ (pa_markRow_self me now hev)
        · rw [markRow_nomatch me now hev]
          exact ih _ hrest hid

theorem nodup_select_ids {me : String} {db : List SyncEvent}
    (h : (db.map (·.id)).Nodup) :
    ((selectUnprocessed me db).map (·.id)).Nodup := by
  unfold selectUnprocessed
  have h1 : ((db.filter (fun e => !(e.processed_by.contains me))).map (·.id)).Nodup :=
    h.sublist ((List.filter_sublist db).map (fun r : SyncEvent => r.id))
  have h2 :
      ((sortByCreated (db.filter (fun e => !(e.processed_by.contains me)))).map
        (·.id)).Nodup :=
    (((sortByCreated_perm _).map (fun r : SyncEvent => r.id)).nodup_iff).mpr h1
  exact h2.sublist ((List.take_sublist 100 _).map (fun r : SyncEvent => r.id))

/-- C6: a sync event `e` published by another instance is applied at most
once by instance `me` (`syncService.ts` `processUnprocessedEvents`,
lines 92-114, and `markEventProcessed`, lines 186-201): a poll that
selects `e` dispatches it exactly once; afterwards `me` is a member of
the event's `processed_by` set and `processed_at` is stamped (preserving
an earlier stamp); subsequent polls do not select the event and dispatch
it zero times. -/
theorem c6_sync_event_applied_at_most_once (me : String) (now : Nat)
    (db : List SyncEvent) (e : SyncEvent)
    (hsel : e ∈ selectUnprocessed me db)
    (hother : e.instance_id ≠ me)
    (hnodup : (db.map (·.id)).Nodup) :
    (processUnprocessedEvents me now db).2.count e.id = 1
    ∧ (∀ e' ∈ (processUnprocessedEvents me now db).1, e'.id = e.id →
        me ∈ e'.processed_by ∧ e'.processed_at = some (e.processed_at.getD now))
    ∧ (∀ e' ∈ selectUnprocessed me (processUnprocessedEvents me now db).1,
        e'.id ≠ e.id)
    ∧ (processUnprocessedEvents me now
        (processUnprocessedEvents me now db).1).2.count e.id = 0 := by
  have hdb1 : (processUnprocessedEvents me now db).1 =
      db.map (fun r => applyMarks me now r (selectUnprocessed me db)) := by
    rw [processUnprocessedEvents, runEvents_eq, foldl_mark_eq_map]
  have htr : (processUnprocessedEvents me now db).2 =
      ((selectUnprocessed me db).filter
        (fun ev => !(ev.instance_id == me))).map (·.id) := by
    rw [processUnprocessedEvents, runEvents_eq]
  have hedb : e ∈ db := (mem_selectUnprocessed hsel).1
  -- part 1: dispatched exactly once in this poll
  have part1 : (processUnprocessedEvents me now db).2.count e.id = 1 := by
    have hnods : ((selectUnprocessed me db).map (·.id)).Nodup :=
      nodup_select_ids hnodup
    have hnodf :
        (((selectUnprocessed me db).filter
          (fun ev => !(ev.instance_id == me))).map (·.id)).Nodup :=
      hnods.sublist ((List.filter_sublist _).map (fun r : SyncEvent => r.id))
    have hmemf : e ∈ (selectUnprocessed me db).filter
        (fun ev => !(ev.instance_id == me)) :=
      List.mem_filter.mpr ⟨hsel, by simp [hother]⟩
    rw [htr]
    exact List.count_eq_one_of_mem hnodf (List.mem_map_of_mem _ hmemf)
  -- part 2: acknowledged in the table
  have part2 : ∀ e' ∈ (processUnprocessedEvents me now db).1, e'.id = e.id →
      me ∈ e'.processed_by ∧ e'.processed_at = some (e.processed_at.getD now) := by
    intro e' he' hid
    rw [hdb1] at he'
    obtain ⟨r, hr, rfl⟩ := List.mem_map.mp he'
    have hrid : r.id = e.id := by rw [← applyMarks_id me now (selectUnprocessed me db) r]; exact hid
    have hre : r = e :=
      List.inj_on_of_nodup_map hnodup hr hedb (by rw [hrid])
    subst hre
    exact ⟨mem_pb_applyMarks_self now _ r hsel hrid,
      pa_applyMarks_self now _ r hsel hrid⟩
  -- part 3: subsequent polls skip the event
  have part3 : ∀ e' ∈ selectUnprocessed me (processUnprocessedEvents me now db).1,
      e'.id ≠ e.id := by
    intro e' he' hid
    obtain ⟨he'db, hcont⟩ := mem_selectUnprocessed he'
    have hpb : me ∈ e'.processed_by := (part2 e' he'db hid).1
    have : e'.processed_by.contains me = true := by
      simpa [List.contains] using List.elem_iff.mpr hpb
    rw [hcont] at this
    cases this
  -- part 4: the next poll dispatches the event zero times
  refine ⟨part1, part2, part3, ?_⟩
  have htr2 : (processUnprocessedEvents me now
      (processUnprocessedEvents me now db).1).2 =
      ((selectUnprocessed me (processUnprocessedEvents me now db).1).filter
        (fun ev => !(ev.instance_id == me))).map (·.id) := by
    rw [processUnprocessedEvents, runEvents_eq]
  rw [htr2]
  refine List.count_eq_zero.mpr ?_
  intro hmem
  obtain ⟨e', he'f, hid⟩ := List.mem_map.mp hmem
  exact part3 e' (List.mem_of_mem_filter he'f) hid

/-- Witness for C6: instance `J` polls a table holding one event
published by `I`; the event is dispatched once and a second poll
dispatches it zero times. -/
theorem c6_witness :
    (processUnprocessedEvents "J" 99 syncDb0).2.count 1 = 1
    ∧ (processUnprocessedEvents "J" 99
        (processUnprocessedEvents "J" 99 syncDb0).1).2.count 1 = 0 := by
  have h := c6_sync_event_applied_at_most_once "J" 99 syncDb0
    { id := 1, event_type := "SERVER_REGISTERED", instance_id := "I", created_at := 10 }
    (by decide) (by decide) (by decide)
  exact ⟨h.1, h.2.2.2⟩

end McpRouter
